import Mathlib

/-!
Verification of the raycast-llm-chat extension (TypeScript) against its
natural-language specification.

This file shallowly embeds the parts of the source relevant to the frozen
claims:
* `src/types.ts` — the chat data model (`ChatMessage`, `ChatSession`);
* `src/lib/llm/index` (the shopify-only revision, whose lines the claims
  cite) — `queryLLM`, `stopRequest`, the shared abort handle, provider
  dispatch;
* `src/lib/llm/utils.ts` — `getTextFromParts`,
  `prepareLastMessageForStreaming`, `getLastMessageText`;
* `src/lib/llm/providers/shopify.ts` and
  `src/lib/llm/providers/gemini.ts` — the streaming loops;
* `src/lib/util.ts` — `throttle`;
* `src/lib/storage.ts` — `persistState`, `saveState`, `loadState`;
* `src/lib/chat-state.ts` — the store, `getUpdateSessionPatch`,
  `useSortedSessions`, `sendQuery`, `deleteSession`, `startNewChat`.

Effectful TypeScript is embedded as pure functions over explicit state and
an explicit environment (clock values, generated uuids, vendor stream
chunks, abort schedules), with every host/vendor interaction recorded in a
chronological event log.
-/

namespace RaycastLLMChat

/-! ## Data model (src/types.ts) -/

/-- `inlineData` payload of a `Part` from the Gemini SDK: base64 data plus
a MIME type, as used by `getTextAndImagesFromParts`. -/
structure InlineData where
  mimeType : String
  data : String
deriving DecidableEq, Repr

/-- `ChatPart` (`type ChatPart = Part` in src/types.ts): an optional text
payload and an optional inline image payload. -/
structure ChatPart where
  text : Option String := none
  inlineData : Option InlineData := none
deriving DecidableEq, Repr

/-- The `role` field of a `ChatMessage`: `'user' | 'model'`. -/
inductive Role where
  | user
  | model
deriving DecidableEq, Repr

/-- `ChatMessage` from src/types.ts. `date` is a Unix timestamp in
milliseconds, embedded as `Nat`. -/
structure ChatMessage where
  id : String
  date : Nat
  role : Role
  parts : List ChatPart
deriving DecidableEq, Repr

/-- `ChatSession` from src/types.ts. `updatedAt` is declared `number` in
the TypeScript interface, but sessions revived from persisted JSON may
lack it — `useSortedSessions` reads `b.updatedAt ?? b.createdAt` — so it
is embedded as `Option Nat`. -/
structure ChatSession where
  id : String
  title : String
  history : List ChatMessage
  createdAt : Nat
  updatedAt : Option Nat
  modelId : String
deriving DecidableEq, Repr

/-! ## LLM helper functions (src/lib/llm/utils.ts and index) -/

/-- `getTextFromParts(parts)`: `parts.map((p) => p.text ?? '').join('')`. -/
def getTextFromParts (parts : List ChatPart) : String :=
  String.join (parts.map (fun p => p.text.getD ""))

/-- `prepareLastMessageForStreaming(lastMessage)`: if the first part's
text is the `'...'` placeholder, `shift()` it off. The
`undefined` short-circuit of the source is handled at the call sites,
which match on `curHistory.getLast?`. -/
def prepareLastMessageForStreaming (m : ChatMessage) : ChatMessage :=
  if (m.parts.head?.bind (fun p => p.text)) = some "..." then
    { m with parts := m.parts.tail }
  else m

/-- `getLastMessageText(curHistory)`: text of the final message, if any. -/
def getLastMessageText (curHistory : List ChatMessage) : Option String :=
  (curHistory.getLast?).map (fun m => getTextFromParts m.parts)

/-- JavaScript `String.prototype.trim`: strip whitespace from both ends
of the string. -/
def jsTrim (s : String) : String :=
  ((s.toList.dropWhile Char.isWhitespace).reverse.dropWhile
    Char.isWhitespace).reverse.asString

/-! ## Streaming loops (providers/shopify.ts and providers/gemini.ts)

A vendor stream is embedded as the list of chunks the `for await` loop
would receive. The abort signal read at the top of each iteration is
embedded as `abortAt : Option Nat`: `some k` means the signal reads
aborted from iteration index `k` on, `none` means it never does. Each
loop returns the final state of the streamed-into last message together
with the list of histories passed to `onHistoryChange`, in order. -/

/-- Whether `abortControllerRef.current?.signal.aborted` reads true at
iteration `i` under abort schedule `abortAt`. -/
def signalAborted (abortAt : Option Nat) (i : Nat) : Bool :=
  match abortAt with
  | some k => decide (k ≤ i)
  | none => false

/-- The `for await (const chunk of stream)` loop of `queryShopify`
(providers/shopify.ts): a chunk carries
`chunk.choices[0]?.delta?.content` (absent or a string); `if (content)`
skips absent and empty deltas; otherwise the delta is pushed onto the
last message's parts and `onHistoryChange?.([...curHistory])` reports
the history. `pre` is `curHistory.slice(0, -1)`, which the loop never
touches. -/
def shopifyStreamLoop (pre : List ChatMessage) (last : ChatMessage) :
    List (Option String) → Nat → Option Nat → ChatMessage × List (List ChatMessage)
  | [], _, _ => (last, [])
  | c :: rest, i, abortAt =>
    if signalAborted abortAt i then (last, [])
    else
      match c with
      | some content =>
        if content = "" then shopifyStreamLoop pre last rest (i + 1) abortAt
        else
          let last2 := { last with parts := last.parts ++ [{ text := some content }] }
          let r := shopifyStreamLoop pre last2 rest (i + 1) abortAt
          (r.1, (pre ++ [last2]) :: r.2)
      | none => shopifyStreamLoop pre last rest (i + 1) abortAt

/-- The `for await (const chunk of result)` loop of `queryGemini`
(providers/gemini.ts): a chunk carries
`chunk.candidates?.at(0)?.content?.parts` (absent or a list of parts);
`if (!parts) continue` skips absent ones; otherwise all parts are pushed
onto the last message and the history is reported. -/
def geminiStreamLoop (pre : List ChatMessage) (last : ChatMessage) :
    List (Option (List ChatPart)) → Nat → Option Nat → ChatMessage × List (List ChatMessage)
  | [], _, _ => (last, [])
  | c :: rest, i, abortAt =>
    if signalAborted abortAt i then (last, [])
    else
      match c with
      | some parts =>
        let last2 := { last with parts := last.parts ++ parts }
        let r := geminiStreamLoop pre last2 rest (i + 1) abortAt
        (r.1, (pre ++ [last2]) :: r.2)
      | none => geminiStreamLoop pre last rest (i + 1) abortAt

/-! ## Providers and queryLLM (src/lib/llm/index, first revision) -/

/-- Chronological record of the observable effects of one `queryLLM`
call: toasts shown (title, message), the histories handed to `onStart`
and `onHistoryChange`, and every streaming request issued to a vendor
API (provider name, model id). -/
inductive LLMEvent where
  | toast (title : String) (message : String)
  | onStart (h : List ChatMessage)
  | onHistoryChange (h : List ChatMessage)
  | vendorCall (provider : String) (modelId : String)
deriving DecidableEq, Repr

/-- Environment for one provider `query` call: whether the
`getShopifyApiKey()` shellout succeeds, the stream chunks the vendor
would deliver, and the abort schedule. -/
structure ProviderEnv where
  shopifyKeyOk : Bool
  shopifyChunks : List (Option String)
  abortAt : Option Nat
deriving Repr

/-- Outcome of a provider `query` call: the events it produced, the
message of an exception it threw (if any), its return value, and the
final contents of `curHistory` (whose last message it mutates in
place). -/
structure ProviderResult where
  events : List LLMEvent
  thrown : Option String
  ret : Option String
  finalHistory : List ChatMessage
deriving Repr

/-- A JavaScript value as far as truthiness inside `Array.prototype.find`
is concerned. Calling an `async` arrow function yields a `promiseOf b`:
an object that is truthy regardless of the boolean `b` it will
eventually resolve to. -/
inductive JsValue where
  | bool (b : Bool)
  | promiseOf (b : Bool)
deriving DecidableEq, Repr

/-- JavaScript truthiness of a `JsValue`: a Promise is an object and
hence always truthy. -/
def jsTruthy : JsValue → Bool
  | .bool b => b
  | .promiseOf _ => true

/-- `Array.prototype.find(pred)` under JavaScript truthiness. -/
def jsFind {α : Type} (pred : α → JsValue) : List α → Option α
  | [] => none
  | x :: xs => if jsTruthy (pred x) then some x else jsFind pred xs

/-- `SHOPIFY_MODELS` from providers/shopify.ts. -/
def SHOPIFY_MODELS : List String :=
  ["gpt-4.1", "gpt-4.5-preview", "o3", "o3-mini", "gpt-4.1-mini",
   "anthropic:claude-3-5-sonnet", "anthropic:claude-3-7-sonnet", "gpt-4o"]

/-- `queryShopify` (providers/shopify.ts): fetch the API key (throwing if
the shellout fails), prepare the last message, convert the earlier
messages, issue the vendor streaming call, run the streaming loop, toast
on un-aborted completion, and return the text of the last message. -/
def queryShopify (modelId : String) (curHistory : List ChatMessage)
    (env : ProviderEnv) : ProviderResult :=
  if env.shopifyKeyOk = false then
    { events := [], thrown := some "Failed to fetch Shopify API key",
      ret := none, finalHistory := curHistory }
  else
    match curHistory.getLast? with
    | none =>
      { events := [], thrown := none, ret := none, finalHistory := curHistory }
    | some lastRaw =>
      let lastMessage := prepareLastMessageForStreaming lastRaw
      let pre := curHistory.dropLast
      let r := shopifyStreamLoop pre lastMessage env.shopifyChunks 0 env.abortAt
      let finalHistory := pre ++ [r.1]
      let doneEvents :=
        if signalAborted env.abortAt env.shopifyChunks.length then []
        else [LLMEvent.toast "Response Complete" ""]
      { events := LLMEvent.vendorCall "Shopify" modelId ::
          (r.2.map LLMEvent.onHistoryChange ++ doneEvents),
        thrown := none,
        ret := getLastMessageText finalHistory,
        finalHistory := finalHistory }

/-- An LLM provider as described by `LLMProvider` in src/lib/llm/types
(part of the repository sources): name, static model list, weak model,
membership test, and the streaming query operation. -/
structure Provider where
  name : String
  models : List String
  weakModel : String
  isModel : String → Bool
  query : String → List ChatMessage → ProviderEnv → ProviderResult

/-- `shopifyProvider` from providers/shopify.ts:
`isModel: (modelId) => SHOPIFY_MODELS.includes(modelId)`. -/
def shopifyProvider : Provider :=
  { name := "Shopify"
    models := SHOPIFY_MODELS
    weakModel := "gpt-4.1-mini"
    isModel := fun modelId => SHOPIFY_MODELS.contains modelId
    query := queryShopify }

/-- `providers = [shopifyProvider]` from src/lib/llm/index. -/
def providers : List Provider := [shopifyProvider]

/-- `DEFAULT_MODEL_ID` from src/lib/llm/index. -/
def DEFAULT_MODEL_ID : String := "gpt-4.1"

/-- Environment for one `queryLLM` call: `Date.now()`, the two
`crypto.randomUUID()` results, and the provider environment. -/
structure LLMEnv where
  now : Nat
  userMsgId : String
  placeholderId : String
  provider : ProviderEnv
deriving Repr

/-- The dispatch expression of `queryLLM`:
`providers.find(async (p) => await p.isModel(modelId))`. The predicate is
an `async` arrow function, so on every element it returns a Promise —
truthy whatever `isModel` answers. -/
def findProviderForQuery (modelId : String) : Option Provider :=
  jsFind (fun p => JsValue.promiseOf (p.isModel modelId)) providers

/-- `queryLLM` from src/lib/llm/index (first revision): guard on empty
input and falsy modelId, append the user message and the `'...'`
placeholder, fire `onStart`/`onHistoryChange`, dispatch to a provider
(aborting any previous request and installing a fresh `AbortController`
— that shared-handle state is modelled separately by `AbortMachine`),
catch anything thrown into an error toast, and finally return either the
provider's value or the text of the last message of `curHistory`. -/
def queryLLM (input : String) (history : List ChatMessage) (modelId : String)
    (enableSearchTool : Bool) (env : LLMEnv) : List LLMEvent × Option String :=
  let _searchTool := enableSearchTool
  if jsTrim input = "" then
    ([LLMEvent.toast "Empty Query" "Please enter a prompt"], none)
  else if modelId = "" then
    ([LLMEvent.toast "ModelId not found" ("Model \"" ++ modelId ++ "\" is not supported.")], none)
  else
    let userMessage : ChatMessage :=
      { id := env.userMsgId, role := Role.user, date := env.now,
        parts := [{ text := some input }] }
    let modelPlaceholder : ChatMessage :=
      { id := env.placeholderId, role := Role.model, date := env.now,
        parts := [{ text := some "..." }] }
    let curHistory := history ++ [userMessage, modelPlaceholder]
    let startEvents := [LLMEvent.onStart curHistory, LLMEvent.onHistoryChange curHistory]
    match findProviderForQuery modelId with
    | some provider =>
      let r := provider.query modelId curHistory env.provider
      match r.thrown with
      | none => (startEvents ++ r.events, r.ret)
      | some msg =>
        (startEvents ++ r.events ++ [LLMEvent.toast "Error Querying LLM" msg],
         some (getTextFromParts (((r.finalHistory.getLast?).map ChatMessage.parts).getD [])))
    | none =>
      (startEvents ++ [LLMEvent.toast "Error Querying LLM" ("Unsupported model: " ++ modelId)],
       some (getTextFromParts (((curHistory.getLast?).map ChatMessage.parts).getD [])))

/-! ## The shared abort handle (src/lib/llm/index)

`let abortControllerRef: RefObject<AbortController | null> = { current: null }`
is module-level state shared by `stopRequest` and `queryLLM`. Its
lifecycle is embedded as a state machine. Controllers are identified by
the id of the request that created them (`queryLLM` creates exactly one
fresh controller per request). -/

/-- State of the abort handle: the controller currently installed in
`abortControllerRef.current` (if any), the ids of all controllers whose
`abort()` has been called, and the requests that have begun but whose
`finally` block has not yet run. -/
structure AbortState where
  current : Option Nat
  aborted : List Nat
  inflight : List Nat
deriving DecidableEq, Repr

/-- The initial handle state: `{ current: null }`, nothing aborted,
nothing in flight. -/
def AbortState.init : AbortState :=
  { current := none, aborted := [], inflight := [] }

/-- `stopRequest = () => abortControllerRef.current?.abort()`: abort the
installed controller when there is one, otherwise do nothing. -/
def stopRequestStep (s : AbortState) : AbortState :=
  match s.current with
  | some c => { s with aborted := c :: s.aborted }
  | none => s

/-- The entry of `queryLLM`'s `try` block for request `r`:
`stopRequest(); abortControllerRef.current = new AbortController()`. -/
def beginRequestStep (s : AbortState) (r : Nat) : AbortState :=
  let s1 := stopRequestStep s
  { s1 with current := some r, inflight := r :: s1.inflight }

/-- `queryLLM`'s `finally { abortControllerRef.current = null }` for
request `r`: the handle is cleared and `r` is no longer in flight. -/
def finishRequestStep (s : AbortState) (r : Nat) : AbortState :=
  { s with current := none, inflight := s.inflight.erase r }

/-- The events that touch the abort handle. -/
inductive AbortEvent where
  | beginRequest (r : Nat)
  | stopReq
  | finishRequest (r : Nat)
deriving DecidableEq, Repr

/-- One step of the abort-handle machine. -/
def abortStep (s : AbortState) : AbortEvent → AbortState
  | .beginRequest r => beginRequestStep s r
  | .stopReq => stopRequestStep s
  | .finishRequest r => finishRequestStep s r

/-- Run the abort-handle machine from the initial state. -/
def runAbort (evs : List AbortEvent) : AbortState :=
  evs.foldl abortStep AbortState.init

/-- Request `r` is a cancellable in-flight request in state `s`: it has
begun and not finished, its controller is the one the shared handle
holds, and that controller has not been aborted. -/
def cancellableInflight (s : AbortState) (r : Nat) : Prop :=
  r ∈ s.inflight ∧ s.current = some r ∧ r ∉ s.aborted

instance (s : AbortState) (r : Nat) : Decidable (cancellableInflight s r) := by
  unfold cancellableInflight; infer_instance

/-! ## Storage (src/lib/storage.ts) -/

/-- `STATE_KEY` from src/lib/storage.ts. -/
def STATE_KEY : String := "geminiChatState"

/-- `PersistentState` from src/lib/storage.ts. -/
structure PersistentState where
  sessions : List ChatSession
  selectedModelId : String
  enableSearchTool : Bool
deriving DecidableEq, Repr

/-- JSON string escaping, as performed by `JSON.stringify` on string
values: escape the quote, the backslash, and control characters. -/
def jsonEscapeChar (c : Char) : String :=
  if c = '"' then "\\\""
  else if c = '\\' then "\\\\"
  else if c = '\n' then "\\n"
  else if c = '\r' then "\\r"
  else if c = '\t' then "\\t"
  else if c.toNat < 32 then
    "\\u" ++ (Nat.toDigits 16 c.toNat).asString.leftpad 4 '0'
  else String.singleton c

/-- A JSON string literal. -/
def jsonStr (s : String) : String :=
  "\"" ++ String.join (s.toList.map jsonEscapeChar) ++ "\""

/-- A JSON array. -/
def jsonArr (elems : List String) : String :=
  "[" ++ String.intercalate "," elems ++ "]"

/-- `JSON.stringify` of an `InlineData` object. -/
def jsonInlineData (d : InlineData) : String :=
  "\x7b" ++ jsonStr "mimeType" ++ ":" ++ jsonStr d.mimeType ++ "," ++
    jsonStr "data" ++ ":" ++ jsonStr d.data ++ "\x7d"

/-- `JSON.stringify` of a `ChatPart`; `undefined` fields are omitted. -/
def jsonChatPart (p : ChatPart) : String :=
  let fields :=
    (match p.text with
     | some t => [jsonStr "text" ++ ":" ++ jsonStr t]
     | none => []) ++
    (match p.inlineData with
     | some d => [jsonStr "inlineData" ++ ":" ++ jsonInlineData d]
     | none => [])
  "\x7b" ++ String.intercalate "," fields ++ "\x7d"

/-- The JSON encoding of a `role` value. -/
def jsonRole : Role → String
  | .user => jsonStr "user"
  | .model => jsonStr "model"

/-- `JSON.stringify` of a `ChatMessage`. -/
def jsonChatMessage (m : ChatMessage) : String :=
  "\x7b" ++ jsonStr "id" ++ ":" ++ jsonStr m.id ++ "," ++
    jsonStr "date" ++ ":" ++ toString m.date ++ "," ++
    jsonStr "role" ++ ":" ++ jsonRole m.role ++ "," ++
    jsonStr "parts" ++ ":" ++ jsonArr (m.parts.map jsonChatPart) ++ "\x7d"

/-- `JSON.stringify` of a `ChatSession`; a missing `updatedAt` is
omitted. -/
def jsonChatSession (s : ChatSession) : String :=
  "\x7b" ++ jsonStr "id" ++ ":" ++ jsonStr s.id ++ "," ++
    jsonStr "title" ++ ":" ++ jsonStr s.title ++ "," ++
    jsonStr "history" ++ ":" ++ jsonArr (s.history.map jsonChatMessage) ++ "," ++
    jsonStr "createdAt" ++ ":" ++ toString s.createdAt ++
    (match s.updatedAt with
     | some u => "," ++ jsonStr "updatedAt" ++ ":" ++ toString u
     | none => "") ++ "," ++
    jsonStr "modelId" ++ ":" ++ jsonStr s.modelId ++ "\x7d"

/-- `JSON.stringify(state)` for the whole `PersistentState`, fields in
declaration order. -/
def jsonPersistentState (st : PersistentState) : String :=
  "\x7b" ++ jsonStr "sessions" ++ ":" ++ jsonArr (st.sessions.map jsonChatSession) ++ "," ++
    jsonStr "selectedModelId" ++ ":" ++ jsonStr st.selectedModelId ++ "," ++
    jsonStr "enableSearchTool" ++ ":" ++
      (if st.enableSearchTool then "true" else "false") ++ "\x7d"

/-- The host `LocalStorage`, embedded as an association list from keys to
stored strings. -/
abbrev HostStorage := List (String × String)

/-- Read a key from host storage. -/
def storageLookup (store : HostStorage) (k : String) : Option String :=
  ((store.find? (fun e => e.1 = k)).map (fun e => e.2))

/-- `LocalStorage.setItem(key, value)`: overwrite an existing entry or
append a new one. -/
def storageSetItem : HostStorage → String → String → HostStorage
  | [], k, v => [(k, v)]
  | e :: rest, k, v =>
    if e.1 = k then (k, v) :: rest else e :: storageSetItem rest k v

/-- `persistState(state)` from src/lib/storage.ts:
`await LocalStorage.setItem(STATE_KEY, JSON.stringify(state))` inside a
`try`/`catch` that logs and swallows a failing write. `fails` says
whether the host `setItem` call throws. -/
def persistState (store : HostStorage) (state : PersistentState)
    (fails : Bool) : HostStorage :=
  if fails then store
  else storageSetItem store STATE_KEY (jsonPersistentState state)

/-- The shape of the value produced by
`JSON.parse(stateJson) as Partial<PersistentState>` for one stored
session: `loadState` only repairs `modelId`, so only that field is
treated as possibly missing (and possibly the empty string, which is
falsy under `||`). -/
structure StoredSession where
  id : String
  title : String
  history : List ChatMessage
  createdAt : Nat
  updatedAt : Option Nat
  modelId : Option String
deriving DecidableEq, Repr

/-- The shape of a parsed `Partial<PersistentState>`. -/
structure StoredStateShape where
  sessions : Option (List StoredSession)
  selectedModelId : Option String
  enableSearchTool : Option Bool
deriving DecidableEq, Repr

/-- What `LocalStorage.getItem(STATE_KEY)` + `JSON.parse` yield:
`absent` when `getItem` returns `undefined` or a falsy string, `corrupt`
when `JSON.parse` throws, `parsed` otherwise. -/
inductive StoredState where
  | absent
  | corrupt
  | parsed (s : StoredStateShape)
deriving DecidableEq, Repr

/-- JavaScript `a || b` on an optional string: `a` unless it is missing
or empty (falsy). -/
def jsOrStr (a : Option String) (b : String) : String :=
  match a with
  | some s => if s = "" then b else s
  | none => b

/-- The default state built at the top of `loadState`. -/
def defaultPersistentState : PersistentState :=
  { sessions := [], selectedModelId := DEFAULT_MODEL_ID, enableSearchTool := false }

/-- The session repair inside `loadState`:
`{ ...session, modelId: session.modelId || loadedState.selectedModelId || DEFAULT_MODEL_ID }`. -/
def reviveSession (selectedModelId : Option String) (s : StoredSession) : ChatSession :=
  { id := s.id, title := s.title, history := s.history,
    createdAt := s.createdAt, updatedAt := s.updatedAt,
    modelId := jsOrStr s.modelId (jsOrStr selectedModelId DEFAULT_MODEL_ID) }

/-- `loadState()` from src/lib/storage.ts: absent or unparsable stored
state resolves to the default; otherwise every session is given a
`modelId` (`||`-chain), `selectedModelId` defaults via `??`, and
`enableSearchTool` defaults via `??`. The `try`/`catch` makes the
function total. -/
def loadState : StoredState → PersistentState
  | .absent => defaultPersistentState
  | .corrupt => defaultPersistentState
  | .parsed ls =>
    { sessions := (ls.sessions.getD []).map (reviveSession ls.selectedModelId)
      selectedModelId := ls.selectedModelId.getD DEFAULT_MODEL_ID
      enableSearchTool := ls.enableSearchTool.getD false }

/-! ## throttle (src/lib/util.ts)

`throttle(fn, ms)` closes over `timeoutId`, `lastArgs` and
`trailingCallScheduled`. The embedding makes time explicit:
`windowEnd = some u` stands for a live `timeoutId` whose callback is
scheduled at instant `u`, and `writes` records every invocation of the
wrapped `fn` as a `(time, argument)` pair. -/

/-- The closure state of one `throttle(fn, ms)` wrapper, plus the log of
`fn` invocations. -/
structure ThrottleState (A : Type) where
  windowEnd : Option Nat
  lastArgs : Option A
  trailing : Bool
  writes : List (Nat × A)
deriving DecidableEq, Repr

/-- Fresh closure state: `timeoutId = null`, `lastArgs = null`,
`trailingCallScheduled = false`. -/
def ThrottleState.init {A : Type} : ThrottleState A :=
  { windowEnd := none, lastArgs := none, trailing := false, writes := [] }

/-- The body of `throttledFn(...args)` executed at instant `t`:
`lastArgs = args`; if no timeout is live, invoke `fn(...args)` and open a
window ending at `t + ms`; otherwise just flag a trailing call. -/
def throttledCall {A : Type} (ms : Nat) (s : ThrottleState A) (t : Nat) (a : A) :
    ThrottleState A :=
  let s1 := { s with lastArgs := some a }
  match s1.windowEnd with
  | none => { s1 with writes := s1.writes ++ [(t, a)], windowEnd := some (t + ms) }
  | some _ => { s1 with trailing := true }

/-- The `setTimeout` callback firing at instant `u`: `timeoutId = null`;
if a trailing call is scheduled, clear the flag and re-enter
`throttledFn(...lastArgs!)`. The `none` branch of `lastArgs` is the
unreachable counterpart of the source's non-null assertion. -/
def fireTimer {A : Type} (ms : Nat) (s : ThrottleState A) (u : Nat) : ThrottleState A :=
  let s1 := { s with windowEnd := none }
  if s1.trailing then
    match s1.lastArgs with
    | some a => throttledCall ms { s1 with trailing := false } u a
    | none => { s1 with trailing := false }
  else s1

/-- Deliver every due timer callback up to instant `t`. A fire at `u`
either leaves no timer or (through the trailing re-entry) opens exactly
one new window ending at `u + ms` with the trailing flag clear, so at
most two fires are due before any instant. -/
def advanceTo {A : Type} (ms : Nat) (s : ThrottleState A) (t : Nat) : ThrottleState A :=
  match s.windowEnd with
  | some u =>
    if u ≤ t then
      let s1 := fireTimer ms s u
      match s1.windowEnd with
      | some v => if v ≤ t then fireTimer ms s1 v else s1
      | none => s1
    else s
  | none => s

/-- One external call of the throttled function at instant `t`: first the
event loop delivers due timers, then `throttledFn(args)` runs. -/
def throttleStep {A : Type} (ms : Nat) (s : ThrottleState A) (t : Nat) (a : A) :
    ThrottleState A :=
  throttledCall ms (advanceTo ms s t) t a

/-- Run a list of timed external calls against the wrapper. -/
def runThrottle {A : Type} (ms : Nat) (s : ThrottleState A) :
    List (Nat × A) → ThrottleState A
  | [] => s
  | (t, a) :: rest => runThrottle ms (throttleStep ms s t a) rest

/-- Let every remaining timer fire. -/
def flushThrottle {A : Type} (ms : Nat) (s : ThrottleState A) : ThrottleState A :=
  match s.windowEnd with
  | some u => advanceTo ms s (u + ms)
  | none => s

/-- `const throttledPersistState = throttle(persistState, 500)` and
`saveState` (src/lib/storage.ts): one external call of the throttled
persister. The `writes` log records the `persistState` invocations. -/
def saveStateStep (s : ThrottleState PersistentState) (t : Nat)
    (state : PersistentState) : ThrottleState PersistentState :=
  throttleStep 500 s t state

/-! ## The session-state store (src/lib/chat-state.ts) -/

/-- `State` from src/lib/chat-state.ts. -/
structure StoreState where
  initializing : Bool
  loading : Bool
  query : String
  selectedMessageId : Option String
  activeSessionId : Option String
  persistentState : PersistentState
deriving DecidableEq, Repr

/-- `initialState` from src/lib/chat-state.ts. -/
def initialStoreState : StoreState :=
  { initializing := true, loading := false, query := "",
    selectedMessageId := none, activeSessionId := none,
    persistentState := defaultPersistentState }

/-- `getActiveSession(s)`: the session whose id is the active one, when
an active id is set and such a session exists. -/
def getActiveSession (s : StoreState) : Option ChatSession :=
  match s.activeSessionId with
  | some aid => s.persistentState.sessions.find? (fun sesh => aid = sesh.id)
  | none => none

/-- `getSelectedModelId(s) = getActiveSession(s)?.modelId ?? s.persistentState.selectedModelId`. -/
def getSelectedModelId (s : StoreState) : String :=
  ((getActiveSession s).map ChatSession.modelId).getD s.persistentState.selectedModelId

/-- The `updates` argument of `getUpdateSessionPatch`:
`Partial<Pick<ChatSession, 'title' | 'history' | 'modelId'>>`. -/
structure SessionUpdates where
  title : Option String := none
  history : Option (List ChatMessage) := none
  modelId : Option String := none
deriving DecidableEq, Repr

/-- The mergerino patch `{ ...updates, updatedAt: Date.now() }` applied
to one session: supplied fields overwrite, `updatedAt` is set to the
current time. -/
def applySessionUpdates (s : ChatSession) (u : SessionUpdates) (now : Nat) : ChatSession :=
  { s with
    title := u.title.getD s.title
    history := u.history.getD s.history
    modelId := u.modelId.getD s.modelId
    updatedAt := some now }

/-- `getUpdateSessionPatch(sessionId, updates)` applied to the sessions
array: patch the element at the found index. When the session is not
found the source logs a warning and patches index `-1`, which adds a
stray `'-1'` property to the array and leaves every element unchanged —
embedded as the identity on the list. -/
def getUpdateSessionPatch (sessions : List ChatSession) (sessionId : String)
    (updates : SessionUpdates) (now : Nat) : List ChatSession :=
  match sessions.findIdx? (fun s => s.id = sessionId) with
  | some i => sessions.modify (fun s => applySessionUpdates s updates now) i
  | none => sessions

/-- The sort key of `useSortedSessions`: `updatedAt ?? createdAt`. -/
def sessionSortKey (s : ChatSession) : Nat :=
  s.updatedAt.getD s.createdAt

/-- `useSortedSessions`:
`[...sessions].sort((a, b) => (b.updatedAt ?? b.createdAt) - (a.updatedAt ?? a.createdAt))`
— a copy of the stored array sorted by non-increasing key (the
comparator puts `a` before `b` exactly when `key b - key a ≤ 0`); the
stored array itself is left untouched. -/
def useSortedSessions (sessions : List ChatSession) : List ChatSession :=
  sessions.mergeSort (fun a b => sessionSortKey b ≤ sessionSortKey a)

/-- Environment for one `sendQuery` call: the `crypto.randomUUID()` for
a freshly created session plus the `queryLLM` environment. -/
structure SendQueryEnv where
  newSessionId : String
  llm : LLMEnv
deriving Repr

/-- How the `onStart`/`onHistoryChange` callbacks installed by
`sendQuery` patch the store: `onStart` writes the prepared history into
the session, raises `loading`, clears the query text and selects the
last message; `onHistoryChange` (`setSession`) writes the streamed
history. Toasts and vendor calls do not touch the store. -/
def applyQueryEvent (sessionId : String) (now : Nat) (st : StoreState) :
    LLMEvent → StoreState
  | .onStart h =>
    { st with
      persistentState := { st.persistentState with
        sessions := getUpdateSessionPatch st.persistentState.sessions sessionId
          { history := some h } now }
      loading := true
      query := ""
      selectedMessageId := (h.getLast?).map ChatMessage.id }
  | .onHistoryChange h =>
    { st with
      persistentState := { st.persistentState with
        sessions := getUpdateSessionPatch st.persistentState.sessions sessionId
          { history := some h } now } }
  | _ => st

/-- `sendQuery(query, searchEnabled)` from src/lib/chat-state.ts: bail
out returning `false` on blank queries or while the store is still
initializing; otherwise create a new session when none is active, run
`queryLLM` (whose callbacks patch the store), and drop the loading flag.
The un-awaited background title generation happens after `sendQuery`'s
returned state and is not part of it; the defensive
`if (!activeSession)` re-check of the source is unreachable once the
new-session branch ran. -/
def sendQuery (st : StoreState) (query : String) (searchEnabled : Bool)
    (env : SendQueryEnv) : Bool × StoreState :=
  if jsTrim query = "" ∨ st.initializing then (false, st)
  else
    let active0 := getActiveSession st
    let modelToUse := getSelectedModelId st
    let stAndSession :=
      match active0 with
      | some a => (st, a)
      | none =>
        let initialTitle := if query.take 50 = "" then "New Chat" else query.take 50
        let newSession : ChatSession :=
          { id := env.newSessionId, title := initialTitle, history := [],
            createdAt := env.llm.now, updatedAt := some env.llm.now,
            modelId := modelToUse }
        ({ st with
            activeSessionId := some newSession.id
            persistentState := { st.persistentState with
              sessions := newSession :: st.persistentState.sessions } },
         newSession)
    let st1 := stAndSession.1
    let activeSession := stAndSession.2
    let r := queryLLM query activeSession.history modelToUse searchEnabled env.llm
    let st2 := r.1.foldl (applyQueryEvent activeSession.id env.llm.now) st1
    (true, { st2 with loading := false })

/-- `startNewChat` from src/lib/chat-state.ts (its `stopRequest()` side
effect lives in the `AbortMachine` model): clear the active session, the
query text and the selected message. -/
def startNewChat (st : StoreState) : StoreState :=
  { st with activeSessionId := none, query := "", selectedMessageId := none }

/-- `deleteSession(sessionIdToDelete)` from src/lib/chat-state.ts:
remember whether the active session is the one being deleted, filter it
out of the sessions array, and when it was the active one fall back to
`startNewChat`. -/
def deleteSession (st : StoreState) (sessionIdToDelete : String) : StoreState :=
  let isCurrentSession :=
    ((getActiveSession st).map ChatSession.id) = some sessionIdToDelete
  let st1 :=
    { st with persistentState := { st.persistentState with
        sessions := st.persistentState.sessions.filter
          (fun x => x.id ≠ sessionIdToDelete) } }
  if isCurrentSession then startNewChat st1 else st1

/-! ## Claim theorems -/

/-- C1: At every point in execution there is at most one cancellable
in-flight LLM streaming request per session. `queryLLM` aborts any
existing request via the shared handle before installing a fresh
`AbortController` (first conjunct), `stopRequest` aborts the current
request when one exists and is a no-op otherwise (second and third
conjuncts), the `finally` block clears the handle when the request
finishes (fourth conjunct), and along any event trace of the handle
machine at most one request is both in flight and cancellable through
the shared handle (final conjunct). -/
theorem abortHandle_single_cancellable_request :
    (∀ (s : AbortState) (r : Nat),
        (beginRequestStep s r).current = some r
        ∧ (∀ c, s.current = some c → c ∈ (beginRequestStep s r).aborted))
    ∧ (∀ (s : AbortState) (c : Nat), s.current = some c →
        c ∈ (stopRequestStep s).aborted)
    ∧ (∀ s : AbortState, s.current = none → stopRequestStep s = s)
    ∧ (∀ (s : AbortState) (r : Nat), (finishRequestStep s r).current = none)
    ∧ (∀ (evs : List AbortEvent) (r₁ r₂ : Nat),
        cancellableInflight (runAbort evs) r₁ →
        cancellableInflight (runAbort evs) r₂ → r₁ = r₂) := by
  refine ⟨?_, ?_, ?_, ?_, ?_⟩
  · intro s r
    constructor
    · rfl
    · intro c hc
      simp [beginRequestStep, stopRequestStep, hc]
  · intro s c hc
    simp [stopRequestStep, hc]
  · intro s hc
    simp [stopRequestStep, hc]
  · intro s r
    rfl
  · intro evs r₁ r₂ h₁ h₂
    obtain ⟨-, hc₁, -⟩ := h₁
    obtain ⟨-, hc₂, -⟩ := h₂
    rw [hc₁] at hc₂
    exact Option.some.inj hc₂

/-- C1 witness: a concrete trace — request 1 begins, request 2 begins
(aborting request 1's controller), a user presses stop — in whose final
state request 2 is the unique cancellable in-flight request, and the
mechanism facts hold at its states. -/
theorem abortHandle_single_cancellable_request_witness :
    ((beginRequestStep (runAbort [AbortEvent.beginRequest 1]) 2).current = some 2
      ∧ 1 ∈ (beginRequestStep (runAbort [AbortEvent.beginRequest 1]) 2).aborted)
    ∧ 2 ∈ (stopRequestStep (runAbort [AbortEvent.beginRequest 1, AbortEvent.beginRequest 2])).aborted
    ∧ (2 : Nat) = 2 := by
  refine ⟨⟨?_, ?_⟩, ?_, ?_⟩
  · exact (abortHandle_single_cancellable_request.1 (runAbort [AbortEvent.beginRequest 1]) 2).1
  · exact (abortHandle_single_cancellable_request.1 (runAbort [AbortEvent.beginRequest 1]) 2).2 1 (by decide)
  · exact abortHandle_single_cancellable_request.2.1
      (runAbort [AbortEvent.beginRequest 1, AbortEvent.beginRequest 2]) 2 (by decide)
  · exact abortHandle_single_cancellable_request.2.2.2.2
      [AbortEvent.beginRequest 1, AbortEvent.beginRequest 2] 2 2
      (by decide) (by decide)

/-- C9: for every query whose trim is empty, and for every call made
while the store is still initializing, `sendQuery` returns `false` and
leaves the whole store state — sessions, query text, loading flag,
active session id, everything — unchanged. -/
theorem sendQuery_blank_or_initializing_noop
    (st : StoreState) (query : String) (searchEnabled : Bool) (env : SendQueryEnv)
    (h : jsTrim query = "" ∨ st.initializing = true) :
    sendQuery st query searchEnabled env = (false, st) := by
  unfold sendQuery
  rw [if_pos]
  exact h

/-- C9 witness: a blank query against the initial store is refused and
the store is untouched. -/
theorem sendQuery_blank_or_initializing_noop_witness :
    (jsTrim "  " = "" ∨ initialStoreState.initializing = true)
    ∧ sendQuery initialStoreState "  " false
        { newSessionId := "s1",
          llm := { now := 0, userMsgId := "u1", placeholderId := "m1",
                   provider := { shopifyKeyOk := true, shopifyChunks := [],
                                 abortAt := none } } } =
        (false, initialStoreState) :=
  ⟨Or.inl (by decide),
   sendQuery_blank_or_initializing_noop initialStoreState "  " false _
     (Or.inl (by decide))⟩

/-- C10: `deleteSession(id)` removes exactly the sessions with the given
id, leaves every other session, the selected model id and the
search-tool flag (and the loading/initializing flags) unchanged; when
the deleted session is the active one it also clears the active session
id, the selected message id and the pending query, and otherwise the
active session id, selected message id and query are unchanged. -/
theorem deleteSession_removes_exactly_matching
    (st : StoreState) (sid : String) :
    (deleteSession st sid).persistentState.sessions =
        st.persistentState.sessions.filter (fun x => x.id ≠ sid)
    ∧ (deleteSession st sid).persistentState.selectedModelId =
        st.persistentState.selectedModelId
    ∧ (deleteSession st sid).persistentState.enableSearchTool =
        st.persistentState.enableSearchTool
    ∧ (deleteSession st sid).loading = st.loading
    ∧ (deleteSession st sid).initializing = st.initializing
    ∧ (((getActiveSession st).map ChatSession.id) = some sid →
        (deleteSession st sid).activeSessionId = none
        ∧ (deleteSession st sid).selectedMessageId = none
        ∧ (deleteSession st sid).query = "")
    ∧ (((getActiveSession st).map ChatSession.id) ≠ some sid →
        (deleteSession st sid).activeSessionId = st.activeSessionId
        ∧ (deleteSession st sid).selectedMessageId = st.selectedMessageId
        ∧ (deleteSession st sid).query = st.query) := by
  unfold deleteSession startNewChat
  by_cases h : ((getActiveSession st).map ChatSession.id) = some sid
  · simp [h]
  · simp [h]

/-- C10 witness: deleting the active one of two concrete sessions
removes exactly it, keeps the other session and the persistent flags,
and clears the active-session id, selected message and query. -/
theorem deleteSession_removes_exactly_matching_witness :
    (deleteSession
        { initializing := false, loading := false, query := "q",
          selectedMessageId := some "m", activeSessionId := some "a",
          persistentState :=
            { sessions :=
                [{ id := "a", title := "A", history := [], createdAt := 1,
                   updatedAt := some 1, modelId := "gpt-4.1" },
                 { id := "b", title := "B", history := [], createdAt := 2,
                   updatedAt := some 2, modelId := "gpt-4.1" }],
              selectedModelId := "gpt-4.1", enableSearchTool := true } }
        "a").persistentState.sessions =
      List.filter (fun x => x.id ≠ "a")
        [{ id := "a", title := "A", history := [], createdAt := 1,
           updatedAt := some 1, modelId := "gpt-4.1" },
         { id := "b", title := "B", history := [], createdAt := 2,
           updatedAt := some 2, modelId := "gpt-4.1" }]
    ∧ (deleteSession
        { initializing := false, loading := false, query := "q",
          selectedMessageId := some "m", activeSessionId := some "a",
          persistentState :=
            { sessions :=
                [{ id := "a", title := "A", history := [], createdAt := 1,
                   updatedAt := some 1, modelId := "gpt-4.1" },
                 { id := "b", title := "B", history := [], createdAt := 2,
                   updatedAt := some 2, modelId := "gpt-4.1" }],
              selectedModelId := "gpt-4.1", enableSearchTool := true } }
        "a").activeSessionId = none := by
  refine ⟨(deleteSession_removes_exactly_matching _ "a").1, ?_⟩
  exact ((deleteSession_removes_exactly_matching _ "a").2.2.2.2.2.1 (by decide)).1

/-- C2: for every `queryLLM` call whose input has non-empty trim (and a
model id, which the `ModelId` union type guarantees is a non-empty
string), the history delivered to `onStart` — and to the first
`onHistoryChange` — is the supplied history with exactly two messages
appended in order: a user-role message carrying the `randomUUID` fresh
id, the current date and the single part `{text: input}`, followed by
the transient assistant-side placeholder (role `'model'` in this code
base) with the single part `{text: '...'}`. These are the first two
events of the call, so they precede any contact with a provider. -/
theorem queryLLM_onStart_appends_user_and_placeholder
    (input : String) (history : List ChatMessage) (modelId : String)
    (searchTool : Bool) (env : LLMEnv)
    (hinput : jsTrim input ≠ "") (hmodel : modelId ≠ "") :
    ∃ rest,
      (queryLLM input history modelId searchTool env).1 =
        LLMEvent.onStart (history ++
          [{ id := env.userMsgId, date := env.now, role := Role.user,
             parts := [{ text := some input }] },
           { id := env.placeholderId, date := env.now, role := Role.model,
             parts := [{ text := some "..." }] }]) ::
        LLMEvent.onHistoryChange (history ++
          [{ id := env.userMsgId, date := env.now, role := Role.user,
             parts := [{ text := some input }] },
           { id := env.placeholderId, date := env.now, role := Role.model,
             parts := [{ text := some "..." }] }]) :: rest := by
  unfold queryLLM
  rw [if_neg hinput, if_neg hmodel]
  simp only [findProviderForQuery, providers, jsFind, jsTruthy, if_pos]
  generalize (shopifyProvider.query modelId
      (history ++
        [{ id := env.userMsgId, date := env.now, role := Role.user,
           parts := [{ text := some input }] },
         { id := env.placeholderId, date := env.now, role := Role.model,
           parts := [{ text := some "..." }] }]) env.provider) = r
  cases h : r.thrown with
  | none => exact ⟨r.events, rfl⟩
  | some msg => exact ⟨r.events ++ [LLMEvent.toast "Error Querying LLM" msg], rfl⟩

/-- C2 witness: a concrete call with input `"hi"` and empty supplied
history delivers exactly `[userMessage, placeholder]` to `onStart` and
to the first `onHistoryChange`. -/
theorem queryLLM_onStart_appends_user_and_placeholder_witness :
    jsTrim "hi" ≠ "" ∧ "gpt-4.1" ≠ "" ∧
    ∃ rest,
      (queryLLM "hi" [] "gpt-4.1" false
          { now := 7, userMsgId := "u1", placeholderId := "m1",
            provider := { shopifyKeyOk := true, shopifyChunks := [],
                          abortAt := none } }).1 =
        LLMEvent.onStart
          [{ id := "u1", date := 7, role := Role.user,
             parts := [{ text := some "hi" }] },
           { id := "m1", date := 7, role := Role.model,
             parts := [{ text := some "..." }] }] ::
        LLMEvent.onHistoryChange
          [{ id := "u1", date := 7, role := Role.user,
             parts := [{ text := some "hi" }] },
           { id := "m1", date := 7, role := Role.model,
             parts := [{ text := some "..." }] }] :: rest :=
  ⟨by decide, by decide,
   queryLLM_onStart_appends_user_and_placeholder "hi" [] "gpt-4.1" false
     { now := 7, userMsgId := "u1", placeholderId := "m1",
       provider := { shopifyKeyOk := true, shopifyChunks := [], abortAt := none } }
     (by decide) (by decide)⟩

/-- C6 (code bug): the claim says `queryLLM` dispatches to the provider
whose `isModel` accepts the selected model id and that a model id
accepted by no provider leads to an `'Unsupported model'` report with no
vendor call. The code instead passes an `async` predicate to
`providers.find`; the Promise it returns is truthy for every provider,
so the first provider (Shopify) is chosen for every model id (final
conjunct), the vendor streaming call is issued even when — as for
`"zzz"` here — `isModel` rejects the id on every provider (third
conjunct), and no `'Unsupported model'` toast appears: the call streams
normally (first two conjuncts). -/
theorem queryLLM_async_find_dispatches_unsupported_model :
    (queryLLM "hi" [] "zzz" false
        { now := 0, userMsgId := "u1", placeholderId := "m1",
          provider := { shopifyKeyOk := true, shopifyChunks := [some "Hello"],
                        abortAt := none } }).1 =
      [LLMEvent.onStart
         [{ id := "u1", date := 0, role := Role.user, parts := [{ text := some "hi" }] },
          { id := "m1", date := 0, role := Role.model, parts := [{ text := some "..." }] }],
       LLMEvent.onHistoryChange
         [{ id := "u1", date := 0, role := Role.user, parts := [{ text := some "hi" }] },
          { id := "m1", date := 0, role := Role.model, parts := [{ text := some "..." }] }],
       LLMEvent.vendorCall "Shopify" "zzz",
       LLMEvent.onHistoryChange
         [{ id := "u1", date := 0, role := Role.user, parts := [{ text := some "hi" }] },
          { id := "m1", date := 0, role := Role.model, parts := [{ text := some "Hello" }] }],
       LLMEvent.toast "Response Complete" ""]
    ∧ (queryLLM "hi" [] "zzz" false
        { now := 0, userMsgId := "u1", placeholderId := "m1",
          provider := { shopifyKeyOk := true, shopifyChunks := [some "Hello"],
                        abortAt := none } }).2 = some "Hello"
    ∧ (∀ p ∈ providers, p.isModel "zzz" = false)
    ∧ (∀ modelId : String, findProviderForQuery modelId = some shopifyProvider) := by
  refine ⟨by decide, by decide, by decide, ?_⟩
  intro modelId
  rfl

/-- Writing key `k` leaves every other key of the host storage
untouched. -/
theorem storageSetItem_lookup_other (store : HostStorage) (k v k2 : String)
    (h : k2 ≠ k) : storageLookup (storageSetItem store k v) k2 = storageLookup store k2 := by
  have hk : k ≠ k2 := fun hkk => h hkk.symm
  induction store with
  | nil => simp [storageSetItem, storageLookup, List.find?, hk]
  | cons e rest ih =>
    by_cases he : e.1 = k
    · have he2 : ¬(e.1 = k2) := by rw [he]; exact hk
      simp [storageSetItem, if_pos he, storageLookup, List.find?, hk, he2]
    · simp only [storageSetItem, if_neg he]
      by_cases he2 : e.1 = k2
      · simp [storageLookup, List.find?, he2]
      · simpa [storageLookup, List.find?, he2] using ih

/-- Writing key `k` makes a lookup of `k` return the new value. -/
theorem storageSetItem_lookup_self (store : HostStorage) (k v : String) :
    storageLookup (storageSetItem store k v) k = some v := by
  induction store with
  | nil => simp [storageSetItem, storageLookup, List.find?]
  | cons e rest ih =>
    by_cases he : e.1 = k
    · simp [storageSetItem, if_pos he, storageLookup, List.find?]
    · simpa [storageSetItem, if_neg he, storageLookup, List.find?, he] using ih

/-- C4: every persistence write serializes the entire persistent state
(sessions, selected model id, search-tool flag) with `JSON.stringify`
and stores it under the single fixed key `'geminiChatState'`: every key
other than `STATE_KEY` is untouched whether or not the write fails
(first conjunct), a successful write stores exactly
`JSON.stringify(state)` under `STATE_KEY` (second conjunct), and a
failing host write is caught, leaving the storage unchanged instead of
propagating the exception — `persistState` is a total function (third
conjunct). -/
theorem persistState_single_key_total
    (store : HostStorage) (state : PersistentState) (fails : Bool) :
    (∀ k, k ≠ STATE_KEY →
      storageLookup (persistState store state fails) k = storageLookup store k)
    ∧ (fails = false →
      storageLookup (persistState store state fails) STATE_KEY =
        some (jsonPersistentState state))
    ∧ (fails = true → persistState store state fails = store) := by
  refine ⟨?_, ?_, ?_⟩
  · intro k hk
    cases fails with
    | true => rfl
    | false =>
      simpa [persistState] using storageSetItem_lookup_other store STATE_KEY
        (jsonPersistentState state) k hk
  · intro h
    subst h
    simpa [persistState] using storageSetItem_lookup_self store STATE_KEY
      (jsonPersistentState state)
  · intro h
    subst h
    rfl

/-- C4 witness: a concrete write of the default state into a storage
holding an unrelated key leaves that key alone and stores the serialized
state under `'geminiChatState'`. -/
theorem persistState_single_key_total_witness :
    ("other" ≠ STATE_KEY
      ∧ storageLookup (persistState [("other", "x")] defaultPersistentState false) "other" =
          storageLookup [("other", "x")] "other")
    ∧ storageLookup (persistState [("other", "x")] defaultPersistentState false) STATE_KEY =
        some (jsonPersistentState defaultPersistentState)
    ∧ persistState [("other", "x")] defaultPersistentState true = [("other", "x")] :=
  ⟨⟨by decide,
    (persistState_single_key_total [("other", "x")] defaultPersistentState false).1
      "other" (by decide)⟩,
   (persistState_single_key_total [("other", "x")] defaultPersistentState false).2.1 rfl,
   (persistState_single_key_total [("other", "x")] defaultPersistentState true).2.2 rfl⟩

/-- C8: `loadState` is total (its `try`/`catch` turns an absent or
unparsable stored value into the default state: empty session list,
`DEFAULT_MODEL_ID`, search tool disabled — first two conjuncts), every
session in every state it returns carries a non-empty `modelId` (third
conjunct), the returned sessions are exactly the stored ones revived in
order (fourth conjunct), and the revived `modelId` is taken from the
session itself when that is a non-empty string, else from the stored
`selectedModelId` when that is a non-empty string, else it is
`DEFAULT_MODEL_ID` (final conjunct). -/
theorem loadState_total_default_and_modelId :
    loadState StoredState.absent = defaultPersistentState
    ∧ loadState StoredState.corrupt = defaultPersistentState
    ∧ (∀ ls : StoredStateShape, ∀ s ∈ (loadState (StoredState.parsed ls)).sessions,
        s.modelId ≠ "")
    ∧ (∀ ls : StoredStateShape,
        (loadState (StoredState.parsed ls)).sessions =
          (ls.sessions.getD []).map (reviveSession ls.selectedModelId))
    ∧ (∀ (sel : Option String) (stored : StoredSession),
        (∀ m, stored.modelId = some m → m ≠ "" →
          (reviveSession sel stored).modelId = m)
        ∧ ((stored.modelId = none ∨ stored.modelId = some "") →
            ∀ m, sel = some m → m ≠ "" → (reviveSession sel stored).modelId = m)
        ∧ ((stored.modelId = none ∨ stored.modelId = some "") →
            (sel = none ∨ sel = some "") →
            (reviveSession sel stored).modelId = DEFAULT_MODEL_ID)) := by
  refine ⟨rfl, rfl, ?_, fun _ => rfl, ?_⟩
  · intro ls s hs
    simp only [loadState, List.mem_map] at hs
    obtain ⟨stored, -, rfl⟩ := hs
    simp only [reviveSession, jsOrStr]
    cases stored.modelId with
    | some m =>
      by_cases hm : m = ""
      · simp only [hm, if_pos rfl]
        cases ls.selectedModelId with
        | some m2 =>
          by_cases hm2 : m2 = "" <;> simp [hm2, DEFAULT_MODEL_ID]
        | none => simp [DEFAULT_MODEL_ID]
      · simp [hm]
    | none =>
      cases ls.selectedModelId with
      | some m2 =>
        by_cases hm2 : m2 = "" <;> simp [hm2, DEFAULT_MODEL_ID]
      | none => simp [DEFAULT_MODEL_ID]
  · intro sel stored
    refine ⟨?_, ?_, ?_⟩
    · intro m hm hne
      simp [reviveSession, jsOrStr, hm, hne]
    · intro hnone m hm hne
      rcases hnone with h | h <;>
        simp [reviveSession, jsOrStr, h, hm, hne]
    · intro hnone hsel
      rcases hnone with h | h <;> rcases hsel with h2 | h2 <;>
        simp [reviveSession, jsOrStr, h, h2]

/-- C8 witness: a parsed state with one session lacking a `modelId` and
an empty stored `selectedModelId` resolves that session's model to
`DEFAULT_MODEL_ID`, and the defaults hold. -/
theorem loadState_total_default_and_modelId_witness :
    loadState StoredState.absent = defaultPersistentState
    ∧ (reviveSession (some "")
        { id := "s1", title := "t", history := [], createdAt := 1,
          updatedAt := none, modelId := none }).modelId = DEFAULT_MODEL_ID :=
  ⟨loadState_total_default_and_modelId.1,
   (loadState_total_default_and_modelId.2.2.2.2 (some "")
       { id := "s1", title := "t", history := [], createdAt := 1,
         updatedAt := none, modelId := none }).2.2
     (Or.inl rfl) (Or.inr rfl)⟩

/-- C7: the session store's data are `ChatSession`s (id, title, ordered
history, createdAt/updatedAt — the structure definition itself); every
session mutation routed through `getUpdateSessionPatch` patches exactly
the targeted session, setting its `updatedAt` to the current time,
keeping its identity and creation time, and leaving every other index
untouched (first four conjuncts; a missing session leaves the list
unchanged — fifth conjunct); and `useSortedSessions` returns a
permutation of the stored sessions — the stored array itself, being a
value, is not mutated — in non-increasing order of
`updatedAt ?? createdAt` (last two conjuncts). -/
theorem sessionStore_update_and_sort :
    (∀ (sessions : List ChatSession) (sid : String) (upd : SessionUpdates)
        (now i : Nat), List.findIdx? (fun s => s.id = sid) sessions = some i →
      (getUpdateSessionPatch sessions sid upd now)[i]? =
        (sessions[i]?).map (fun s => applySessionUpdates s upd now)
      ∧ ∀ j, j ≠ i →
          (getUpdateSessionPatch sessions sid upd now)[j]? = sessions[j]?)
    ∧ (∀ (sessions : List ChatSession) (sid : String) (upd : SessionUpdates)
        (now : Nat),
        (getUpdateSessionPatch sessions sid upd now).length = sessions.length)
    ∧ (∀ (s : ChatSession) (upd : SessionUpdates) (now : Nat),
        (applySessionUpdates s upd now).updatedAt = some now
        ∧ (applySessionUpdates s upd now).id = s.id
        ∧ (applySessionUpdates s upd now).createdAt = s.createdAt)
    ∧ (∀ (sessions : List ChatSession) (sid : String) (upd : SessionUpdates)
        (now : Nat), List.findIdx? (fun s => s.id = sid) sessions = none →
        getUpdateSessionPatch sessions sid upd now = sessions)
    ∧ (∀ sessions : List ChatSession, (useSortedSessions sessions).Perm sessions)
    ∧ (∀ sessions : List ChatSession,
        (useSortedSessions sessions).Pairwise
          (fun a b => sessionSortKey b ≤ sessionSortKey a)) := by
  refine ⟨?_, ?_, ?_, ?_, ?_, ?_⟩
  · intro sessions sid upd now i hfind
    constructor
    · rw [getUpdateSessionPatch, hfind, List.getElem?_modify_eq]
      rfl
    · intro j hj
      rw [getUpdateSessionPatch, hfind, List.getElem?_modify_ne]
      exact fun hij => hj hij.symm
  · intro sessions sid upd now
    unfold getUpdateSessionPatch
    cases List.findIdx? (fun s => s.id = sid) sessions with
    | none => rfl
    | some i => exact List.length_modify _ i sessions
  · intro s upd now
    exact ⟨rfl, rfl, rfl⟩
  · intro sessions sid upd now hfind
    rw [getUpdateSessionPatch, hfind]
  · intro sessions
    exact List.mergeSort_perm sessions _
  · intro sessions
    have h := @List.sorted_mergeSort ChatSession
      (fun a b : ChatSession => decide (sessionSortKey b ≤ sessionSortKey a))
      (fun a b c hab hbc => by
        simp only [decide_eq_true_eq] at *
        exact le_trans hbc hab)
      (fun a b => by
        simp only [Bool.or_eq_true, decide_eq_true_eq]
        exact le_total (sessionSortKey b) (sessionSortKey a))
      sessions
    exact h.imp (fun hab => by simpa using hab)

/-- C7 witness: patching the first of two concrete sessions stamps its
`updatedAt`, leaves the second untouched, and sorting puts the freshly
updated session first. -/
theorem sessionStore_update_and_sort_witness :
    (getUpdateSessionPatch
        [{ id := "a", title := "A", history := [], createdAt := 1,
           updatedAt := some 1, modelId := "gpt-4.1" },
         { id := "b", title := "B", history := [], createdAt := 2,
           updatedAt := some 2, modelId := "gpt-4.1" }] "a" { title := some "A2" } 9)[0]? =
      some { id := "a", title := "A2", history := [], createdAt := 1,
             updatedAt := some 9, modelId := "gpt-4.1" }
    ∧ (getUpdateSessionPatch
        [{ id := "a", title := "A", history := [], createdAt := 1,
           updatedAt := some 1, modelId := "gpt-4.1" },
         { id := "b", title := "B", history := [], createdAt := 2,
           updatedAt := some 2, modelId := "gpt-4.1" }] "a" { title := some "A2" } 9)[1]? =
      some { id := "b", title := "B", history := [], createdAt := 2,
             updatedAt := some 2, modelId := "gpt-4.1" } := by
  have h := sessionStore_update_and_sort.1
    [{ id := "a", title := "A", history := [], createdAt := 1,
       updatedAt := some 1, modelId := "gpt-4.1" },
     { id := "b", title := "B", history := [], createdAt := 2,
       updatedAt := some 2, modelId := "gpt-4.1" }] "a" { title := some "A2" } 9 0
    (by decide)
  exact ⟨h.1.trans (by decide), (h.2 1 (by decide)).trans (by decide)⟩

/-- Two histories are one reported streaming step apart: they share all
messages except the final one, whose parts in the second history extend
those in the first. -/
def historyFrameStep (h h2 : List ChatMessage) : Prop :=
  ∃ (pre : List ChatMessage) (m : ChatMessage) (added : List ChatPart),
    h = pre ++ [m] ∧ h2 = pre ++ [{ m with parts := m.parts ++ added }]

/-- Every history the Shopify streaming loop reports extends the
previous one by a frame step on the final message. -/
theorem shopifyStreamLoop_chain (pre : List ChatMessage) :
    ∀ (chunks : List (Option String)) (last : ChatMessage) (i : Nat)
      (abortAt : Option Nat),
      List.Chain historyFrameStep (pre ++ [last])
        (shopifyStreamLoop pre last chunks i abortAt).2 := by
  intro chunks
  induction chunks with
  | nil => intro last i abortAt; exact List.Chain.nil
  | cons c rest ih =>
    intro last i abortAt
    by_cases hab : signalAborted abortAt i = true
    · unfold shopifyStreamLoop
      rw [if_pos hab]
      exact List.Chain.nil
    · rw [Bool.not_eq_true] at hab
      cases c with
      | some content =>
        by_cases hc : content = ""
        · simp only [shopifyStreamLoop, hab, Bool.false_eq_true, if_false, if_pos hc]
          exact ih last (i + 1) abortAt
        · simp only [shopifyStreamLoop, hab, Bool.false_eq_true, if_false, if_neg hc]
          exact List.Chain.cons
            ⟨pre, last, [{ text := some content }], rfl, rfl⟩
            (ih _ (i + 1) abortAt)
      | none =>
        simp only [shopifyStreamLoop, hab, Bool.false_eq_true, if_false]
        exact ih last (i + 1) abortAt

/-- Every history the Gemini streaming loop reports extends the previous
one by a frame step on the final message. -/
theorem geminiStreamLoop_chain (pre : List ChatMessage) :
    ∀ (chunks : List (Option (List ChatPart))) (last : ChatMessage) (i : Nat)
      (abortAt : Option Nat),
      List.Chain historyFrameStep (pre ++ [last])
        (geminiStreamLoop pre last chunks i abortAt).2 := by
  intro chunks
  induction chunks with
  | nil => intro last i abortAt; exact List.Chain.nil
  | cons c rest ih =>
    intro last i abortAt
    by_cases hab : signalAborted abortAt i = true
    · unfold geminiStreamLoop
      rw [if_pos hab]
      exact List.Chain.nil
    · rw [Bool.not_eq_true] at hab
      cases c with
      | some parts =>
        simp only [geminiStreamLoop, hab, Bool.false_eq_true, if_false]
        exact List.Chain.cons ⟨pre, last, parts, rfl, rfl⟩ (ih _ (i + 1) abortAt)
      | none =>
        simp only [geminiStreamLoop, hab, Bool.false_eq_true, if_false]
        exact ih last (i + 1) abortAt

/-- With the signal aborted from iteration `k` on, the Shopify loop
started at iteration `i ≤ k` behaves exactly as if only the first
`k - i` chunks existed: chunks at or past the abort point have no
effect. -/
theorem shopifyStreamLoop_abort_cutoff (pre : List ChatMessage) :
    ∀ (chunks : List (Option String)) (last : ChatMessage) (i k : Nat),
      i ≤ k →
      shopifyStreamLoop pre last chunks i (some k) =
        shopifyStreamLoop pre last (chunks.take (k - i)) i none := by
  intro chunks
  induction chunks with
  | nil => intro last i k _; simp [shopifyStreamLoop]
  | cons c rest ih =>
    intro last i k hik
    by_cases hk : k ≤ i
    · have hki : k = i := le_antisymm hk hik
      subst hki
      rw [Nat.sub_self, List.take_zero]
      unfold shopifyStreamLoop
      simp [signalAborted]
    · have hik2 : i + 1 ≤ k := Nat.succ_le_of_lt (lt_of_not_ge hk)
      have htake : (c :: rest).take (k - i) = c :: rest.take (k - (i + 1)) := by
        have h1 : k - i = (k - (i + 1)) + 1 := by omega
        rw [h1, List.take_succ_cons]
      rw [htake]
      have hab : signalAborted (some k) i = false := by
        simp only [signalAborted, decide_eq_false_iff_not]
        omega
      have hab2 : signalAborted none i = false := rfl
      cases c with
      | some content =>
        by_cases hc : content = ""
        · simp only [shopifyStreamLoop, hab, hab2, Bool.false_eq_true, if_false,
            if_pos hc]
          exact ih last (i + 1) k hik2
        · simp only [shopifyStreamLoop, hab, hab2, Bool.false_eq_true, if_false,
            if_neg hc]
          rw [ih _ (i + 1) k hik2]
      | none =>
        simp only [shopifyStreamLoop, hab, hab2, Bool.false_eq_true, if_false]
        exact ih last (i + 1) k hik2

/-- With the signal aborted from iteration `k` on, the Gemini loop
started at iteration `i ≤ k` behaves exactly as if only the first
`k - i` chunks existed. -/
theorem geminiStreamLoop_abort_cutoff (pre : List ChatMessage) :
    ∀ (chunks : List (Option (List ChatPart))) (last : ChatMessage) (i k : Nat),
      i ≤ k →
      geminiStreamLoop pre last chunks i (some k) =
        geminiStreamLoop pre last (chunks.take (k - i)) i none := by
  intro chunks
  induction chunks with
  | nil => intro last i k _; simp [geminiStreamLoop]
  | cons c rest ih =>
    intro last i k hik
    by_cases hk : k ≤ i
    · have hki : k = i := le_antisymm hk hik
      subst hki
      rw [Nat.sub_self, List.take_zero]
      unfold geminiStreamLoop
      simp [signalAborted]
    · have hik2 : i + 1 ≤ k := Nat.succ_le_of_lt (lt_of_not_ge hk)
      have htake : (c :: rest).take (k - i) = c :: rest.take (k - (i + 1)) := by
        have h1 : k - i = (k - (i + 1)) + 1 := by omega
        rw [h1, List.take_succ_cons]
      rw [htake]
      have hab : signalAborted (some k) i = false := by
        simp only [signalAborted, decide_eq_false_iff_not]
        omega
      have hab2 : signalAborted none i = false := rfl
      cases c with
      | some parts =>
        simp only [geminiStreamLoop, hab, hab2, Bool.false_eq_true, if_false]
        rw [ih _ (i + 1) k hik2]
      | none =>
        simp only [geminiStreamLoop, hab, hab2, Bool.false_eq_true, if_false]
        exact ih last (i + 1) k hik2

/-- C3: during a provider streaming call (Shopify and Gemini alike),
every history passed to `onHistoryChange` differs from the previously
reported history only in the final (placeholder) message: each applied
chunk's content is appended to that last message's parts while all
earlier messages are unchanged (the reported histories form a
`historyFrameStep` chain starting from the history at the start of the
loop — first two conjuncts), and once the abort signal is set no further
chunk is applied: under an abort at iteration `k` the loop is
indistinguishable from one that only ever received the first `k` chunks
(last two conjuncts). -/
theorem streaming_frame_and_abort
    (pre : List ChatMessage) (last : ChatMessage) (k : Nat)
    (schunks : List (Option String)) (gchunks : List (Option (List ChatPart)))
    (abortAt : Option Nat) :
    List.Chain historyFrameStep (pre ++ [last])
      (shopifyStreamLoop pre last schunks 0 abortAt).2
    ∧ List.Chain historyFrameStep (pre ++ [last])
      (geminiStreamLoop pre last gchunks 0 abortAt).2
    ∧ shopifyStreamLoop pre last schunks 0 (some k) =
        shopifyStreamLoop pre last (schunks.take k) 0 none
    ∧ geminiStreamLoop pre last gchunks 0 (some k) =
        geminiStreamLoop pre last (gchunks.take k) 0 none := by
  refine ⟨shopifyStreamLoop_chain pre schunks last 0 abortAt,
    geminiStreamLoop_chain pre gchunks last 0 abortAt, ?_, ?_⟩
  · have h := shopifyStreamLoop_abort_cutoff pre schunks last 0 k (Nat.zero_le k)
    simpa using h
  · have h := geminiStreamLoop_abort_cutoff pre gchunks last 0 k (Nat.zero_le k)
    simpa using h

/-! ### Behaviour of the throttle wrapper -/

/-- A call while no window is open writes immediately and opens a window
ending `ms` later. -/
theorem throttledCall_closed {A : Type} (ms t : Nat) (a : A) (s : ThrottleState A)
    (h : s.windowEnd = none) :
    throttledCall ms s t a =
      { s with
        lastArgs := some a
        writes := s.writes ++ [(t, a)]
        windowEnd := some (t + ms) } := by
  simp [throttledCall, h]

/-- A call while a window is open only records the arguments and flags a
trailing call. -/
theorem throttledCall_open {A : Type} (ms t u : Nat) (a : A) (s : ThrottleState A)
    (h : s.windowEnd = some u) :
    throttledCall ms s t a = { s with lastArgs := some a, trailing := true } := by
  simp [throttledCall, h]

/-- The throttled function always remembers the latest arguments. -/
theorem throttledCall_lastArgs {A : Type} (ms t : Nat) (a : A) (s : ThrottleState A) :
    (throttledCall ms s t a).lastArgs = some a := by
  cases h : s.windowEnd with
  | none => rw [throttledCall_closed ms t a s h]
  | some u => rw [throttledCall_open ms t u a s h]

/-- A timer fire with no trailing call scheduled merely closes the
window. -/
theorem fireTimer_quiet {A : Type} (ms u : Nat) (s : ThrottleState A)
    (h : s.trailing = false) :
    fireTimer ms s u = { s with windowEnd := none } := by
  simp [fireTimer, h]

/-- A timer fire with a trailing call scheduled performs exactly one
write, with the most recently supplied arguments, and opens a fresh
window. -/
theorem fireTimer_trailing_write {A : Type} (ms u : Nat) (s : ThrottleState A) (a : A)
    (ht : s.trailing = true) (ha : s.lastArgs = some a) :
    fireTimer ms s u =
      { s with
        windowEnd := some (u + ms)
        trailing := false
        writes := s.writes ++ [(u, a)] } := by
  simp [fireTimer, throttledCall, ht, ha]

/-- After any timer fire the trailing flag is clear. -/
theorem fireTimer_trailing_false {A : Type} (ms u : Nat) (s : ThrottleState A) :
    (fireTimer ms s u).trailing = false := by
  cases ht : s.trailing with
  | false => rw [fireTimer_quiet ms u s ht]; exact ht
  | true =>
    cases ha : s.lastArgs with
    | some a => rw [fireTimer_trailing_write ms u s a ht ha]
    | none => simp [fireTimer, ht, ha]

/-- A timer fire does not change the remembered arguments. -/
theorem fireTimer_lastArgs {A : Type} (ms u : Nat) (s : ThrottleState A) :
    (fireTimer ms s u).lastArgs = s.lastArgs := by
  cases ht : s.trailing with
  | false => rw [fireTimer_quiet ms u s ht]
  | true =>
    cases ha : s.lastArgs with
    | some a =>
      rw [fireTimer_trailing_write ms u s a ht ha]
      exact ha
    | none => simp [fireTimer, ht, ha]

/-- Delivering due timers does not change the remembered arguments. -/
theorem advanceTo_lastArgs {A : Type} (ms t : Nat) (s : ThrottleState A) :
    (advanceTo ms s t).lastArgs = s.lastArgs := by
  cases hwe : s.windowEnd with
  | none => simp [advanceTo, hwe]
  | some u =>
    by_cases hut : u ≤ t
    · cases hwe1 : (fireTimer ms s u).windowEnd with
      | none =>
        simp only [advanceTo, hwe, if_pos hut, hwe1]
        exact fireTimer_lastArgs ms u s
      | some v =>
        by_cases hvt : v ≤ t
        · simp only [advanceTo, hwe, if_pos hut, hwe1, if_pos hvt]
          rw [fireTimer_lastArgs ms v _, fireTimer_lastArgs ms u s]
        · simp only [advanceTo, hwe, if_pos hut, hwe1, if_neg hvt]
          exact fireTimer_lastArgs ms u s
    · simp [advanceTo, hwe, hut]

/-- The invariant tying a throttle wrapper's closure state to the
current instant `now`: logged writes are at least `ms` apart; an open
window ends exactly `ms` after the last write and not before `now`;
with no window open the last write is at least `ms` old; a trailing
flag implies an open window and remembered arguments; and the
remembered arguments are either pending as a trailing call or already
the last write. -/
structure TInv {A : Type} (ms : Nat) (s : ThrottleState A) (now : Nat) : Prop where
  gaps : List.Chain' (fun w1 w2 => w1.1 + ms ≤ w2.1) s.writes
  window_last : ∀ u, s.windowEnd = some u →
    ∃ w, s.writes.getLast? = some w ∧ w.1 + ms = u
  window_future : ∀ u, s.windowEnd = some u → now ≤ u
  closed_last : s.windowEnd = none → ∀ w, s.writes.getLast? = some w → w.1 + ms ≤ now
  trailing_inv : s.trailing = true →
    (∃ u, s.windowEnd = some u) ∧ ∃ a, s.lastArgs = some a
  track : ∀ a, s.lastArgs = some a →
    s.trailing = true ∨ (s.writes.getLast?).map Prod.snd = some a
  track_none : s.lastArgs = none → s.writes = []

/-- The fresh closure state satisfies the invariant at any instant. -/
theorem TInv.init {A : Type} (ms now : Nat) :
    TInv ms (ThrottleState.init (A := A)) now where
  gaps := List.chain'_nil
  window_last := fun u hu => by cases hu
  window_future := fun u hu => by cases hu
  closed_last := fun _ w hw => by cases hw
  trailing_inv := fun h => by cases h
  track := fun a ha => by cases ha
  track_none := fun _ => rfl

/-- The invariant can be carried forward in time while no timer is due. -/
theorem TInv.lift {A : Type} {ms now t : Nat} {s : ThrottleState A}
    (h : TInv ms s now) (hnt : now ≤ t)
    (hw : ∀ u, s.windowEnd = some u → t ≤ u) : TInv ms s t where
  gaps := h.gaps
  window_last := h.window_last
  window_future := hw
  closed_last := fun hn w hwr => le_trans (h.closed_last hn w hwr) hnt
  trailing_inv := h.trailing_inv
  track := h.track
  track_none := h.track_none

/-- `throttledFn` preserves the invariant when invoked at an instant no
earlier than `now` and not past the end of an open window. -/
theorem throttledCall_inv {A : Type} {ms now : Nat} {s : ThrottleState A}
    (t : Nat) (a : A) (h : TInv ms s now) (hnt : now ≤ t)
    (hw : ∀ u, s.windowEnd = some u → t ≤ u) :
    TInv ms (throttledCall ms s t a) t := by
  cases hwe : s.windowEnd with
  | none =>
    have htr : s.trailing = false := by
      cases htr : s.trailing with
      | false => rfl
      | true =>
        obtain ⟨⟨u, hu⟩, -⟩ := h.trailing_inv htr
        rw [hwe] at hu
        cases hu
    rw [throttledCall_closed ms t a s hwe]
    constructor
    · rw [List.chain'_append]
      refine ⟨h.gaps, List.chain'_singleton _, ?_⟩
      intro x hx y hy
      simp only [List.head?_cons, Option.mem_def, Option.some.injEq] at hy
      subst hy
      exact le_trans (h.closed_last hwe x hx) hnt
    · intro u hu
      simp only [Option.some.injEq] at hu
      exact ⟨(t, a), by simp [List.getLast?_concat], by omega⟩
    · intro u hu
      simp only [Option.some.injEq] at hu
      omega
    · intro hn
      cases hn
    · intro htr2
      simp only at htr2
      rw [htr] at htr2
      cases htr2
    · intro a2 ha2
      simp only [Option.some.injEq] at ha2
      subst ha2
      right
      simp [List.getLast?_concat]
    · intro ha2
      cases ha2
  | some u =>
    rw [throttledCall_open ms t u a s hwe]
    constructor
    · exact h.gaps
    · exact fun v hv => h.window_last v hv
    · intro v hv
      simp only at hv
      rw [hwe] at hv
      simp only [Option.some.injEq] at hv
      subst hv
      exact hw u hwe
    · intro hn
      simp only at hn
      rw [hwe] at hn
      cases hn
    · intro _
      exact ⟨⟨u, hwe⟩, ⟨a, rfl⟩⟩
    · intro a2 ha2
      exact Or.inl rfl
    · intro ha2
      cases ha2

/-- A due timer fire preserves the invariant, moving the clock to the
fire instant. -/
theorem fireTimer_inv {A : Type} {ms now u : Nat} {s : ThrottleState A}
    (h : TInv ms s now) (hwe : s.windowEnd = some u) :
    TInv ms (fireTimer ms s u) u := by
  cases ht : s.trailing with
  | false =>
    rw [fireTimer_quiet ms u s ht]
    constructor
    · exact h.gaps
    · intro v hv
      cases hv
    · intro v hv
      cases hv
    · intro _ w hw
      obtain ⟨w0, hw0, hsum⟩ := h.window_last u hwe
      rw [hw0] at hw
      cases hw
      omega
    · intro htr2
      simp only at htr2
      rw [ht] at htr2
      cases htr2
    · intro a ha
      rcases h.track a ha with htr2 | hlast
      · rw [ht] at htr2
        cases htr2
      · exact Or.inr hlast
    · exact h.track_none
  | true =>
    obtain ⟨-, a, ha⟩ := h.trailing_inv ht
    rw [fireTimer_trailing_write ms u s a ht ha]
    obtain ⟨w0, hw0, hsum⟩ := h.window_last u hwe
    constructor
    · rw [List.chain'_append]
      refine ⟨h.gaps, List.chain'_singleton _, ?_⟩
      intro x hx y hy
      simp only [List.head?_cons, Option.mem_def, Option.some.injEq] at hy
      subst hy
      rw [hw0] at hx
      cases hx
      omega
    · intro v hv
      simp only [Option.some.injEq] at hv
      exact ⟨(u, a), by simp [List.getLast?_concat], by omega⟩
    · intro v hv
      simp only [Option.some.injEq] at hv
      omega
    · intro hn
      cases hn
    · intro htr2
      cases htr2
    · intro a2 ha2
      simp only at ha2
      rw [ha] at ha2
      cases ha2
      right
      simp [List.getLast?_concat]
    · intro ha2
      simp only at ha2
      rw [ha] at ha2
      cases ha2

/-- Delivering due timers preserves the invariant and moves the clock
forward. -/
theorem advanceTo_inv {A : Type} {ms now : Nat} {s : ThrottleState A} (t : Nat)
    (h : TInv ms s now) (hnt : now ≤ t) : TInv ms (advanceTo ms s t) t := by
  cases hwe : s.windowEnd with
  | none =>
    rw [show advanceTo ms s t = s by simp [advanceTo, hwe]]
    refine h.lift hnt ?_
    intro u hu
    rw [hwe] at hu
    cases hu
  | some u =>
    by_cases hut : u ≤ t
    · have h1 : TInv ms (fireTimer ms s u) u := fireTimer_inv h hwe
      cases hwe1 : (fireTimer ms s u).windowEnd with
      | none =>
        rw [show advanceTo ms s t = fireTimer ms s u by
          simp only [advanceTo, hwe, if_pos hut, hwe1]]
        refine h1.lift hut ?_
        intro v hv
        rw [hwe1] at hv
        cases hv
      | some v =>
        by_cases hvt : v ≤ t
        · rw [show advanceTo ms s t = fireTimer ms (fireTimer ms s u) v by
            simp only [advanceTo, hwe, if_pos hut, hwe1, if_pos hvt]]
          have h2 : TInv ms (fireTimer ms (fireTimer ms s u) v) v :=
            fireTimer_inv h1 hwe1
          have hq : fireTimer ms (fireTimer ms s u) v =
              { fireTimer ms s u with windowEnd := none } :=
            fireTimer_quiet ms v _ (fireTimer_trailing_false ms u s)
          refine h2.lift hvt ?_
          intro w hw
          rw [hq] at hw
          cases hw
        · rw [show advanceTo ms s t = fireTimer ms s u by
            simp only [advanceTo, hwe, if_pos hut, hwe1, if_neg hvt]]
          refine h1.lift hut ?_
          intro w hw
          rw [hwe1] at hw
          cases hw
          omega
    · rw [show advanceTo ms s t = s by simp [advanceTo, hwe, hut]]
      refine h.lift hnt ?_
      intro w hw
      rw [hwe] at hw
      cases hw
      omega

/-- Running a nondecreasing sequence of external calls from an invariant
state lands in an invariant state. -/
theorem runThrottle_inv {A : Type} (ms : Nat) :
    ∀ (calls : List (Nat × A)) (s : ThrottleState A) (now : Nat),
      TInv ms s now → (∀ c, calls.head? = some c → now ≤ c.1) →
      List.Chain' (fun c1 c2 => c1.1 ≤ c2.1) calls →
      ∃ m, TInv ms (runThrottle ms s calls) m := by
  intro calls
  induction calls with
  | nil => intro s now h _ _; exact ⟨now, h⟩
  | cons c rest ih =>
    intro s now h hhead hchain
    have hnc : now ≤ c.1 := hhead c rfl
    have h1 : TInv ms (advanceTo ms s c.1) c.1 := advanceTo_inv c.1 h hnc
    have h2 : TInv ms (throttleStep ms s c.1 c.2) c.1 :=
      throttledCall_inv c.1 c.2 h1 (le_refl c.1) h1.window_future
    have hhead2 : ∀ c2, rest.head? = some c2 → c.1 ≤ c2.1 := by
      intro c2 hc2
      cases rest with
      | nil => cases hc2
      | cons c3 rest2 =>
        simp only [List.head?_cons, Option.some.injEq] at hc2
        subst hc2
        exact (List.chain'_cons.mp hchain).1
    exact ih (throttleStep ms s c.1 c.2) c.1 h2 hhead2 hchain.tail

/-- Letting every remaining timer fire empties the timer slot. -/
theorem flushThrottle_windowEnd {A : Type} {ms now : Nat} {s : ThrottleState A}
    (h : TInv ms s now) : (flushThrottle ms s).windowEnd = none := by
  cases hwe : s.windowEnd with
  | none => simp [flushThrottle, hwe]
  | some u =>
    rw [show flushThrottle ms s = advanceTo ms s (u + ms) by
      simp [flushThrottle, hwe]]
    have hut : u ≤ u + ms := Nat.le_add_right u ms
    cases hwe1 : (fireTimer ms s u).windowEnd with
    | none =>
      rw [show advanceTo ms s (u + ms) = fireTimer ms s u by
        simp only [advanceTo, hwe, if_pos hut, hwe1]]
      exact hwe1
    | some v =>
      have hv : v = u + ms := by
        cases ht : s.trailing with
        | false =>
          rw [fireTimer_quiet ms u s ht] at hwe1
          cases hwe1
        | true =>
          obtain ⟨-, a, ha⟩ := h.trailing_inv ht
          rw [fireTimer_trailing_write ms u s a ht ha] at hwe1
          simp only [Option.some.injEq] at hwe1
          omega
      have hvt : v ≤ u + ms := le_of_eq hv
      rw [show advanceTo ms s (u + ms) = fireTimer ms (fireTimer ms s u) v by
        simp only [advanceTo, hwe, if_pos hut, hwe1, if_pos hvt]]
      rw [fireTimer_quiet ms v _ (fireTimer_trailing_false ms u s)]

/-- Flushing preserves the invariant at some instant. -/
theorem flushThrottle_inv {A : Type} {ms now : Nat} {s : ThrottleState A}
    (h : TInv ms s now) : ∃ m, TInv ms (flushThrottle ms s) m := by
  cases hwe : s.windowEnd with
  | none => exact ⟨now, by rw [show flushThrottle ms s = s by simp [flushThrottle, hwe]]; exact h⟩
  | some u =>
    rw [show flushThrottle ms s = advanceTo ms s (u + ms) by
      simp [flushThrottle, hwe]]
    exact ⟨u + ms, advanceTo_inv (u + ms)  h
      (le_trans (h.window_future u hwe) (Nat.le_add_right u ms))⟩

/-- Flushing does not change the remembered arguments. -/
theorem flushThrottle_lastArgs {A : Type} (ms : Nat) (s : ThrottleState A) :
    (flushThrottle ms s).lastArgs = s.lastArgs := by
  cases hwe : s.windowEnd with
  | none => simp [flushThrottle, hwe]
  | some u =>
    rw [show flushThrottle ms s = advanceTo ms s (u + ms) by
      simp [flushThrottle, hwe]]
    exact advanceTo_lastArgs ms (u + ms) s

/-- After running a non-empty call sequence the remembered arguments are
those of the last call. -/
theorem runThrottle_lastArgs {A : Type} (ms : Nat) :
    ∀ (calls : List (Nat × A)) (s : ThrottleState A) (c : Nat × A),
      calls.getLast? = some c → (runThrottle ms s calls).lastArgs = some c.2 := by
  intro calls
  induction calls with
  | nil => intro s c h; cases h
  | cons c0 rest ih =>
    intro s c h
    cases rest with
    | nil =>
      simp only [List.getLast?_singleton, Option.some.injEq] at h
      subst h
      show (throttleStep ms s c0.1 c0.2).lastArgs = some c0.2
      exact throttledCall_lastArgs ms c0.1 c0.2 _
    | cons c1 rest2 =>
      rw [List.getLast?_cons_cons] at h
      exact ih (throttleStep ms s c0.1 c0.2) c h

/-- An empty call sequence leaves the wrapper in its fresh state. -/
theorem runThrottle_nil_init {A : Type} (ms : Nat) :
    flushThrottle ms (runThrottle ms (ThrottleState.init (A := A)) []) =
      ThrottleState.init := by
  rfl

/-- C5: the throttled persister `throttle(persistState, 500)` behind
`saveState` invokes the underlying write immediately when no 500 ms
window is open, opening one (first conjunct); while a window is open a
call performs no write and only schedules one trailing call with the
supplied state (second conjunct); the window's timer fire performs
exactly that one trailing write with the most recently supplied state
(third conjunct); along any nondecreasing call timeline consecutive
writes are at least 500 ms apart — at most one write per window (fourth
conjunct); and after the timers drain, the last write carries the most
recently supplied state, so the latest state is eventually written
(final conjunct). -/
theorem throttledPersist_500ms_behavior :
    (∀ (s : ThrottleState PersistentState) (t : Nat) (state : PersistentState),
        s.windowEnd = none →
        (throttledCall 500 s t state).writes = s.writes ++ [(t, state)]
        ∧ (throttledCall 500 s t state).windowEnd = some (t + 500))
    ∧ (∀ (s : ThrottleState PersistentState) (t u : Nat) (state : PersistentState),
        s.windowEnd = some u →
        (throttledCall 500 s t state).writes = s.writes
        ∧ (throttledCall 500 s t state).trailing = true
        ∧ (throttledCall 500 s t state).lastArgs = some state)
    ∧ (∀ (s : ThrottleState PersistentState) (u : Nat) (state : PersistentState),
        s.windowEnd = some u → s.trailing = true → s.lastArgs = some state →
        (fireTimer 500 s u).writes = s.writes ++ [(u, state)])
    ∧ (∀ calls : List (Nat × PersistentState),
        List.Chain' (fun c1 c2 => c1.1 ≤ c2.1) calls →
        List.Chain' (fun w1 w2 => w1.1 + 500 ≤ w2.1)
          (flushThrottle 500 (runThrottle 500 ThrottleState.init calls)).writes)
    ∧ (∀ calls : List (Nat × PersistentState),
        List.Chain' (fun c1 c2 => c1.1 ≤ c2.1) calls →
        ((flushThrottle 500 (runThrottle 500
            ThrottleState.init calls)).writes.getLast?).map Prod.snd
          = (calls.getLast?).map Prod.snd) := by
  refine ⟨?_, ?_, ?_, ?_, ?_⟩
  · intro s t state h
    rw [throttledCall_closed 500 t state s h]
    exact ⟨rfl, rfl⟩
  · intro s t u state h
    rw [throttledCall_open 500 t u state s h]
    exact ⟨rfl, rfl, rfl⟩
  · intro s u state hw ht ha
    rw [fireTimer_trailing_write 500 u s state ht ha]
  · intro calls hchain
    obtain ⟨m, hInv⟩ := runThrottle_inv 500 calls ThrottleState.init 0
      (TInv.init 500 0) (fun c _ => Nat.zero_le c.1) hchain
    obtain ⟨m2, hInv2⟩ := flushThrottle_inv hInv
    exact hInv2.gaps
  · intro calls hchain
    cases calls with
    | nil =>
      rw [runThrottle_nil_init]
      rfl
    | cons c0 rest =>
      obtain ⟨m, hInv⟩ := runThrottle_inv 500 (c0 :: rest) ThrottleState.init 0
        (TInv.init 500 0) (fun c _ => Nat.zero_le c.1) hchain
      obtain ⟨m2, hInv2⟩ := flushThrottle_inv hInv
      have hne : (c0 :: rest) ≠ [] := by simp
      obtain ⟨c, hc⟩ := Option.isSome_iff_exists.mp
        (List.getLast?_isSome.mpr hne)
      have hrunLA : (runThrottle 500 ThrottleState.init (c0 :: rest)).lastArgs =
          some c.2 := runThrottle_lastArgs 500 (c0 :: rest) ThrottleState.init c hc
      have hLA : (flushThrottle 500 (runThrottle 500
          ThrottleState.init (c0 :: rest))).lastArgs = some c.2 := by
        rw [flushThrottle_lastArgs]
        exact hrunLA
      have hwin : (flushThrottle 500 (runThrottle 500
          ThrottleState.init (c0 :: rest))).windowEnd = none :=
        flushThrottle_windowEnd hInv
      have htr : (flushThrottle 500 (runThrottle 500
          ThrottleState.init (c0 :: rest))).trailing = false := by
        cases htr2 : (flushThrottle 500 (runThrottle 500
            ThrottleState.init (c0 :: rest))).trailing with
        | false => rfl
        | true =>
          obtain ⟨⟨u, hu⟩, -⟩ := hInv2.trailing_inv htr2
          rw [hwin] at hu
          cases hu
      rcases hInv2.track c.2 hLA with h | h
      · rw [htr] at h
        cases h
      · rw [h, hc]
        rfl

/-- C5 witness: the call timeline 0 ms, 100 ms, 700 ms produces an
immediate write, a trailing write at 500 ms with the state supplied at
100 ms, and a final trailing write with the last state; the gap and
final-state properties hold on it. -/
theorem throttledPersist_500ms_behavior_witness :
    (throttledCall 500 (ThrottleState.init (A := PersistentState)) 3
        defaultPersistentState).writes = [] ++ [(3, defaultPersistentState)]
    ∧ List.Chain' (fun w1 w2 => w1.1 + 500 ≤ w2.1)
        (flushThrottle 500 (runThrottle 500 ThrottleState.init
          [(0, { defaultPersistentState with selectedModelId := "a" }),
           (100, { defaultPersistentState with selectedModelId := "b" }),
           (700, { defaultPersistentState with selectedModelId := "c" })])).writes
    ∧ ((flushThrottle 500 (runThrottle 500 ThrottleState.init
          [(0, { defaultPersistentState with selectedModelId := "a" }),
           (100, { defaultPersistentState with selectedModelId := "b" }),
           (700, { defaultPersistentState with selectedModelId := "c" })])).writes.getLast?).map
        Prod.snd =
      ([(0, { defaultPersistentState with selectedModelId := "a" }),
        (100, { defaultPersistentState with selectedModelId := "b" }),
        (700, { defaultPersistentState with selectedModelId := "c" })].getLast?).map Prod.snd :=
  ⟨(throttledPersist_500ms_behavior.1 ThrottleState.init 3 defaultPersistentState rfl).1,
   throttledPersist_500ms_behavior.2.2.2.1 _
     (by simp [List.chain'_cons]),
   throttledPersist_500ms_behavior.2.2.2.2 _
     (by simp [List.chain'_cons])⟩

end RaycastLLMChat
